import Mathlib

/-!
Verification development for the PharmaGuard repository
(frontend: `Dashboard.jsx`, `utils/analysisLogger.js`; backend pipeline
modelled from the specification where its source is not in the repository).

The first part embeds the JavaScript value model and the persistence helper
`cleanForFirestore` / `saveAnalysis` from
`src/pharmaguard-frontend/src/utils/analysisLogger.js`.
-/

namespace Pharma

/-- A JavaScript/JSON-like value, including `undefined`, as manipulated by
`analysisLogger.js`.  Numbers are modelled as rationals. -/
inductive Val where
  | undef
  | null
  | bool (b : Bool)
  | num (q : ℚ)
  | str (s : String)
  | arr (xs : List Val)
  | obj (fs : List (String × Val))

/-- `v === undefined` test used by the filter in `cleanForFirestore`. -/
def isUndef : Val → Bool
  | .undef => true
  | _ => false

mutual
/-- Embedding of `cleanForFirestore` (analysisLogger.js lines 46-56):
arrays are mapped recursively, objects drop entries whose value is
`undefined` and clean the remaining values recursively, every other value
is returned unchanged. -/
def clean : Val → Val
  | .arr xs => .arr (cleanList xs)
  | .obj fs => .obj (cleanFields fs)
  | v => v

/-- `obj.map(cleanForFirestore)` on an array. -/
def cleanList : List Val → List Val
  | [] => []
  | v :: vs => clean v :: cleanList vs

/-- `Object.entries(obj).filter(([, v]) => v !== undefined).map(([k, v]) => [k, cleanForFirestore(v)])`. -/
def cleanFields : List (String × Val) → List (String × Val)
  | [] => []
  | (k, v) :: fs => if isUndef v then cleanFields fs else (k, clean v) :: cleanFields fs
end

mutual
/-- `true` when `undefined` occurs anywhere inside the value: as the value
itself, as an array element, or as an object field value, at any depth. -/
def containsUndef : Val → Bool
  | .undef => true
  | .arr xs => containsUndefList xs
  | .obj fs => containsUndefFields fs
  | _ => false

def containsUndefList : List Val → Bool
  | [] => false
  | v :: vs => containsUndef v || containsUndefList vs

def containsUndefFields : List (String × Val) → Bool
  | [] => false
  | (_, v) :: fs => containsUndef v || containsUndefFields fs
end

mutual
/-- `true` when no object field at any nesting depth (including objects
reached through array elements) has the value `undefined`.  Array elements
that are themselves `undefined` are allowed. -/
def noUndefField : Val → Bool
  | .arr xs => noUndefFieldList xs
  | .obj fs => noUndefFieldFields fs
  | _ => true

def noUndefFieldList : List Val → Bool
  | [] => true
  | v :: vs => noUndefField v && noUndefFieldList vs

def noUndefFieldFields : List (String × Val) → Bool
  | [] => true
  | (_, v) :: fs => !isUndef v && noUndefField v && noUndefFieldFields fs
end

mutual
/-- `IsCleanOf u v` says that `u` is obtained from `v` by removing
`undefined`-valued object fields (at any depth) and changing nothing else:
every other field, array element and atom of `v` is kept, in its original
position. -/
inductive IsCleanOf : Val → Val → Prop where
  | undef : IsCleanOf .undef .undef
  | null : IsCleanOf .null .null
  | bool (b : Bool) : IsCleanOf (.bool b) (.bool b)
  | num (q : ℚ) : IsCleanOf (.num q) (.num q)
  | str (s : String) : IsCleanOf (.str s) (.str s)
  | arr {xs ys : List Val} : ListCleanOf xs ys → IsCleanOf (.arr xs) (.arr ys)
  | obj {fs gs : List (String × Val)} : FieldsCleanOf fs gs → IsCleanOf (.obj fs) (.obj gs)

/-- Element-wise `IsCleanOf` on array contents: same length, same order. -/
inductive ListCleanOf : List Val → List Val → Prop where
  | nil : ListCleanOf [] []
  | cons {x y : Val} {xs ys : List Val} :
      IsCleanOf x y → ListCleanOf xs ys → ListCleanOf (x :: xs) (y :: ys)

/-- Field-wise `IsCleanOf` on object contents: `undefined`-valued fields of
the original may be dropped, every other field is kept with its key and its
(recursively cleaned) value, in order. -/
inductive FieldsCleanOf : List (String × Val) → List (String × Val) → Prop where
  | nil : FieldsCleanOf [] []
  | drop {k : String} {v : Val} {fs gs : List (String × Val)} :
      isUndef v = true → FieldsCleanOf fs gs → FieldsCleanOf fs ((k, v) :: gs)
  | keep {k : String} {u v : Val} {fs gs : List (String × Val)} :
      isUndef v = false → IsCleanOf u v → FieldsCleanOf fs gs →
      FieldsCleanOf ((k, u) :: fs) ((k, v) :: gs)
end

/-- JavaScript truthiness: `undefined`, `null`, `false`, `0` and `""` are
falsy, everything else is truthy. -/
def truthy : Val → Bool
  | .undef => false
  | .null => false
  | .bool b => b
  | .num q => !(q == 0)
  | .str s => !(s == "")
  | .arr _ => true
  | .obj _ => true

/-- JavaScript `a || b`. -/
def jsOr (v d : Val) : Val := if truthy v then v else d

/-- Property access `v.k` (with optional-chaining semantics: accessing a
field of a non-object yields `undefined`, as does a missing key). -/
def getField (v : Val) (k : String) : Val :=
  match v with
  | .obj fs =>
      match fs.find? (fun p => p.1 == k) with
      | some p => p.2
      | none => .undef
  | _ => .undef

mutual
/-- JavaScript string coercion, as used by `Array.prototype.join`. -/
def jsToStr : Val → String
  | .undef => "undefined"
  | .null => "null"
  | .bool b => if b then "true" else "false"
  | .num q => toString q
  | .str s => s
  | .arr xs => jsToStrList xs
  | .obj _ => "[object Object]"

def jsToStrList : List Val → String
  | [] => ""
  | [v] => jsToStr v
  | v :: vs => jsToStr v ++ "," ++ jsToStrList vs
end

mutual
/-- Structural value equality (the `SameValueZero` test used by `Set`). -/
def valBeq : Val → Val → Bool
  | .undef, .undef => true
  | .null, .null => true
  | .bool a, .bool b => a == b
  | .num a, .num b => a == b
  | .str a, .str b => a == b
  | .arr a, .arr b => valListBeq a b
  | .obj a, .obj b => valFieldsBeq a b
  | _, _ => false

def valListBeq : List Val → List Val → Bool
  | [], [] => true
  | a :: as, b :: bs => valBeq a b && valListBeq as bs
  | _, _ => false

def valFieldsBeq : List (String × Val) → List (String × Val) → Bool
  | [], [] => true
  | (ka, va) :: as, (kb, vb) :: bs => ka == kb && valBeq va vb && valFieldsBeq as bs
  | _, _ => false
end

instance : BEq Val := ⟨valBeq⟩

/-- `results.map(r => r.drug).join(', ')` (analysisLogger.js line 65). -/
def drugsSummaryOf (results : List Val) : String :=
  String.intercalate ", " (results.map (fun r => jsToStr (getField r "drug")))

/-- `results.map(r => r.risk_assessment?.risk_label || 'Unknown').join(', ')`
(analysisLogger.js line 66). -/
def riskSummaryOf (results : List Val) : String :=
  String.intercalate ", "
    (results.map (fun r =>
      jsToStr (jsOr (getField (getField r "risk_assessment") "risk_label") (.str "Unknown"))))

/-- `r.risk_assessment?.confidence_score || 0` read as a number. -/
def confOrZero (v : Val) : ℚ :=
  match v with
  | .num q => q
  | _ => 0

/-- `results.reduce((s, r) => s + (...confidence_score || 0), 0) / results.length`
(analysisLogger.js lines 75-77). -/
def avgConfidenceOf (results : List Val) : ℚ :=
  (results.map (fun r =>
    confOrZero (getField (getField r "risk_assessment") "confidence_score"))).sum
    / (results.length : ℚ)

/-- `[...new Set(results.map(r => r.pharmacogenomic_profile?.primary_gene).filter(Boolean))]`
(analysisLogger.js lines 70-72). -/
def genesInvolvedOf (results : List Val) : List Val :=
  ((results.map (fun r =>
    getField (getField r "pharmacogenomic_profile") "primary_gene")).filter truthy).eraseDups

/-- Embedding of the document built by `saveAnalysis` (analysisLogger.js
lines 61-92): the raw `results` plus derived summary fields, passed as a
whole through `cleanForFirestore`.  `vcfFileName` and the `savedAt`
timestamp are parameters. -/
def saveAnalysisPayload (results : List Val) (vcfFileName : Val) (now : Val) : Val :=
  clean (.obj
    [("results", .arr results),
     ("vcfFileName", jsOr vcfFileName (.str "unknown.vcf")),
     ("savedAt", now),
     ("drugsSummary", .str (drugsSummaryOf results)),
     ("riskSummary", .str (riskSummaryOf results)),
     ("drugCount", .num (results.length : ℚ)),
     ("genesInvolved", .arr (genesInvolvedOf results)),
     ("avgConfidence", .num (avgConfidenceOf results))])

/-- A concrete analysis result used to instantiate the persistence theorems. -/
def sampleResults : List Val :=
  [.obj [("drug", .str "CODEINE"),
         ("risk_assessment",
          .obj [("risk_label", .str "Safe"), ("confidence_score", .num (9/10))])]]

/-!
Embedding of `Dashboard.jsx`.  `handleDelete` (lines 68-79) optimistically
calls the remote `deleteAnalysis` and only on success filters the local
history list and closes the expanded panel; on failure it sets an error
message and leaves the list untouched.
-/

/-- One entry of the loaded history list (a Firestore document with its id). -/
structure HistEntry where
  id : String
  data : Val

/-- The component state touched by `handleDelete`. -/
structure DashState where
  history : List HistEntry
  expanded : Option String
  deleting : Option String
  saveError : String

/-- Embedding of `handleDelete` (Dashboard.jsx lines 68-79).  `remoteOk`
abstracts whether the awaited `deleteAnalysis` call succeeded.  The
transient `setDeleting(id)` / final `setDeleting(null)` pair nets out to
`deleting = none`. -/
def handleDelete (remoteOk : Bool) (i : String) (s : DashState) : DashState :=
  if remoteOk then
    { history := s.history.filter (fun h => h.id != i)
      expanded := if s.expanded = some i then none else s.expanded
      deleting := none
      saveError := s.saveError }
  else
    { history := s.history
      expanded := s.expanded
      deleting := none
      saveError := "Failed to delete. Check Firestore rules." }

/-- A concrete two-entry dashboard state used to instantiate C9. -/
def sampleDash : DashState :=
  { history := [⟨"a", .null⟩, ⟨"b", .null⟩]
    expanded := some "a"
    deleting := none
    saveError := "" }

/-!
Dashboard computed stats (Dashboard.jsx lines 82-94): `toxicCount` filters
on `risk_assessment?.risk_label === 'Toxic'` and `riskCounts` buckets every
result under `risk_assessment?.risk_label || 'Unknown'`.
-/

/-- The slice of a result's `risk_assessment` the dashboard stats read.
`none` models a missing field / failed optional chain. -/
structure RiskAssessment where
  risk_label : Option String
  confidence_score : ℚ

/-- One result of `h.results` as read by the dashboard stats. -/
structure AnalysisResult where
  drug : String
  risk_assessment : Option RiskAssessment

/-- `r.risk_assessment?.risk_label || 'Unknown'` (Dashboard.jsx line 91):
a missing assessment, a missing label and the falsy empty string all fall
back to `"Unknown"`. -/
def codeLabel (r : AnalysisResult) : String :=
  match r.risk_assessment with
  | none => "Unknown"
  | some a =>
      match a.risk_label with
      | none => "Unknown"
      | some l => if l = "" then "Unknown" else l

/-- The label the claim assigns: the result's `risk_label` itself, with
`"Unknown"` only for an absent one. -/
def claimLabel (r : AnalysisResult) : String :=
  match r.risk_assessment with
  | none => "Unknown"
  | some a =>
      match a.risk_label with
      | none => "Unknown"
      | some l => l

/-- `acc[label] = (acc[label] || 0) + 1` on an insertion-ordered record:
an existing key is incremented in place, a new key is appended. -/
def bumpCount (acc : List (String × Nat)) (l : String) : List (String × Nat) :=
  match acc with
  | [] => [(l, 1)]
  | p :: t => if p.1 = l then (p.1, p.2 + 1) :: t else p :: bumpCount t l

/-- Embedding of the `riskCounts` reduce (Dashboard.jsx lines 90-94). -/
def riskCounts (rs : List AnalysisResult) : List (String × Nat) :=
  rs.foldl (fun acc r => bumpCount acc (codeLabel r)) []

/-- `riskCounts[l] || 0`. -/
def countOf (acc : List (String × Nat)) (l : String) : Nat :=
  ((acc.find? (fun p => p.1 == l)).map Prod.snd).getD 0

/-- Embedding of `toxicCount` (Dashboard.jsx line 85): a strict `===`
comparison against `'Toxic'`, with no falsy fallback. -/
def toxicCount (rs : List AnalysisResult) : Nat :=
  (rs.filter (fun r =>
    match r.risk_assessment with
    | some a => a.risk_label == some "Toxic"
    | none => false)).length

/-- An analysis result whose `risk_label` is present but is the empty
string — a falsy value in JavaScript. -/
def emptyLabelResult : AnalysisResult := ⟨"WARFARIN", some ⟨some "", 9/10⟩⟩

/-!
Embedding of `handleAnalyze` in `AppMain` (lines 549-589 of the
`Dashboard.jsx` source file, final document): `Promise.allSettled` over the
selected drug list, index-based collection of successes and failures,
`setResults(successes)`, auto-save of the successes only, and one error
message listing the failed drugs.
-/

/-- Outcome of one `analyzeVCF(file, drug)` promise.  A rejection carries
the optional `reason.message`. -/
inductive Outcome where
  | fulfilled (v : Val)
  | rejected (msg : Option String)

/-- `outcome.reason?.message || 'Failed'`. -/
def msgOr (m : Option String) : String :=
  match m with
  | some s => if s = "" then "Failed" else s
  | none => "Failed"

def isRejected : Outcome → Bool
  | .rejected _ => true
  | .fulfilled _ => false

/-- The fulfilled value of an outcome, if any. -/
def fulfilledValue : Outcome → Option Val
  | .fulfilled v => some v
  | .rejected _ => none

/-- The `successes` array of `handleAnalyze`: the fulfilled values, in the
order of `settled`, which is the declared order of `drugs`. -/
def successesOf (drugs : List String) (analyze : String → Outcome) : List Val :=
  ((drugs.map analyze).filterMap fulfilledValue)

/-- The `failures` array of `handleAnalyze`: one line
`` drug ++ ": " ++ message `` per rejected outcome, built by the indexed
`forEach` over `settled` (so paired with `drugs[idx]`). -/
def failuresOf (drugs : List String) (analyze : String → Outcome) : List String :=
  (drugs.zip (drugs.map analyze)).filterMap (fun p =>
    match p.2 with
    | .rejected m => some (p.1 ++ ": " ++ msgOr m)
    | .fulfilled _ => none)

/-- The error message surfaced by `handleAnalyze`, set only when at least
one analysis failed. -/
def errorOf (drugs : List String) (analyze : String → Outcome) : Option String :=
  if (failuresOf drugs analyze).isEmpty then none
  else some ("Some analyses failed:\n" ++ String.intercalate "\n" (failuresOf drugs analyze))

/-- What gets saved to history: `onAnalysisComplete(successes, ...)` is
invoked only when `successes.length > 0`, and `saveAnalysis` receives the
successes list unchanged (`App.handleAnalysisComplete` also returns early
on an empty list). -/
def savedResultsOf (drugs : List String) (analyze : String → Outcome) : Option (List Val) :=
  if (successesOf drugs analyze).isEmpty then none else some (successesOf drugs analyze)

/-!
`Promise.allSettled` merge-order model for C4.  The per-drug analyses are
launched in declared order but may complete in any order; `allSettled`
records each completion at the slot of its launch index, so the settled
array — and hence the assembled results — is independent of the completion
schedule.
-/

/-- When the promise at launch index `i` settles, its outcome is recorded
at slot `i` of the result array. -/
def recordOutcome (outs : List Outcome) (slots : List (Option Outcome)) (i : Nat) :
    List (Option Outcome) :=
  slots.set i outs[i]?

/-- The settled array produced by `Promise.allSettled` under a completion
schedule `order` (the list of launch indices in completion order). -/
def settleAll (outs : List Outcome) (order : List Nat) : List (Option Outcome) :=
  order.foldl (recordOutcome outs) (List.replicate outs.length none)

/-- The indexed `forEach` of `handleAnalyze`, collecting fulfilled values
from the settled array in array order. -/
def collectSuccesses (settled : List (Option Outcome)) : List Val :=
  settled.filterMap (fun s =>
    match s with
    | some (.fulfilled v) => some v
    | _ => none)

/-- The concrete per-drug analysis used to instantiate C3 and C4: one
supported drug succeeding, one unsupported drug failing. -/
def sampleAnalyze : String → Outcome := fun d =>
  if d = "CODEINE" then .fulfilled (.str "verdict") else .rejected (some "Unsupported drug")

/-!
The deterministic inference pipeline (diplotype caller, phenotype resolver,
drug risk engine).  Its Python source (`pharmag-backend`) is not part of
the repository snapshot — only the frontend and the README are — so the
following definitions are modelled from the specification (sections 3, 4.1,
4.2, 4.3 and the README), with the gene lists taken from `DRUG_GENE_MAP`
in `analysisLogger.js`, which is in the repository.
-/

/-- Genotype call states recognized by the input contract. -/
inductive Genotype where
  | homRef
  | het
  | homVar
deriving DecidableEq, Repr

instance : BEq Genotype := ⟨fun a b => decide (a = b)⟩

/-- Modelled from the spec: a validated variant record (spec section 3). -/
structure Variant where
  rsid : String
  gene : String
  genotype : Genotype
  clinsig : String
deriving DecidableEq

/-- Modelled from the spec: a star-allele definition — gene, allele name,
and the set of rsIDs whose variant must be present (spec section 3). -/
structure StarAlleleDef where
  gene : String
  name : String
  rsids : List String
deriving DecidableEq

/-- Modelled from the spec and README: the star-allele knowledge base,
one ordered precedence list per gene (most clinically significant first). -/
def starAlleleDefs : List StarAlleleDef :=
  [⟨"CYP2C9", "*3", ["rs1057910"]⟩,
   ⟨"CYP2C9", "*2", ["rs1799853"]⟩,
   ⟨"CYP2C19", "*2", ["rs4244285"]⟩,
   ⟨"CYP2C19", "*17", ["rs12248560"]⟩,
   ⟨"CYP2D6", "*4", ["rs3892097"]⟩,
   ⟨"VKORC1", "*2", ["rs9923231"]⟩,
   ⟨"CYP4F2", "*3", ["rs2108622"]⟩,
   ⟨"ABCB1", "*2", ["rs1045642"]⟩,
   ⟨"SLCO1B1", "*5", ["rs4149056"]⟩,
   ⟨"CYP3A4", "*22", ["rs35599367"]⟩,
   ⟨"TPMT", "*3A", ["rs1800460", "rs1142345"]⟩,
   ⟨"NUDT15", "*3", ["rs116855232"]⟩,
   ⟨"DPYD", "*2A", ["rs3918290"]⟩,
   ⟨"TYMS", "*2", ["rs34743033"]⟩]

/-- The gene's star-allele definitions, in precedence order. -/
def defsFor (gene : String) : List StarAlleleDef :=
  starAlleleDefs.filter (fun d => d.gene == gene)

/-- Modelled from the spec (section 4.1, duplicate-record edge case): for
conflicting genotype calls on the same rsID, the later-listed record wins. -/
def dedupLastByRsid (vars : List Variant) : List Variant :=
  vars.foldl (fun acc v => acc.filter (fun w => w.rsid != v.rsid) ++ [v]) []

/-- The variant records observed for one gene. -/
def variantsForGene (gene : String) (vars : List Variant) : List Variant :=
  dedupLastByRsid (vars.filter (fun v => v.gene == gene))

/-- The genotype call observed at an rsID, if any. -/
def genotypeAt (gvs : List Variant) (rsid : String) : Option Genotype :=
  (gvs.find? (fun v => v.rsid == rsid)).map Variant.genotype

/-- Modelled from the spec (section 4.1): a definition fires when every
required rsID carries a non-reference call. -/
def defMatches (d : StarAlleleDef) (gvs : List Variant) : Bool :=
  d.rsids.all (fun r =>
    match genotypeAt gvs r with
    | some .het => true
    | some .homVar => true
    | _ => false)

/-- Modelled from the spec (section 4.1): a homozygous-variant match
contributes two copies of the allele, a heterozygous match one copy. -/
def defCopies (d : StarAlleleDef) (gvs : List Variant) : Nat :=
  if d.rsids.all (fun r => genotypeAt gvs r == some Genotype.homVar) then 2 else 1

/-- The gene's matching non-reference alleles with their copy counts, in
precedence order. -/
def matchedAlleles (gene : String) (vars : List Variant) : List (String × Nat) :=
  let gvs := variantsForGene gene vars
  (defsFor gene).filterMap (fun d =>
    if defMatches d gvs then some (d.name, defCopies d gvs) else none)

/-- Allocate allele copies into at most `cap` chromosome slots, in
precedence order. -/
def allocAlleles : Nat → List (String × Nat) → List String
  | _, [] => []
  | cap, (n, c) :: rest =>
      let taken := List.replicate (min c cap) n
      taken ++ allocAlleles (cap - taken.length) rest

/-- Modelled from the spec (section 4.1): the Diplotype Caller — matched
non-reference alleles fill the two chromosome slots in precedence order and
any remaining slot defaults to the reference allele `*1`. -/
def callDiplotype (gene : String) (vars : List Variant) : List String :=
  let alleles := allocAlleles 2 (matchedAlleles gene vars)
  alleles ++ List.replicate (2 - alleles.length) "*1"

/-- Modelled from the spec: per-gene activity scores of the star alleles
(spec section 3, `ActivityScoreTable`). -/
def activityScore (gene allele : String) : Option ℚ :=
  if allele == "*1" then some 1
  else
    ([("CYP2C9", "*2", (1:ℚ)/2), ("CYP2C9", "*3", 0),
      ("CYP2C19", "*2", 0), ("CYP2C19", "*17", 3/2),
      ("CYP2D6", "*4", 0), ("VKORC1", "*2", 1/2), ("CYP4F2", "*3", 1/2),
      ("ABCB1", "*2", 1/2), ("SLCO1B1", "*5", 0), ("CYP3A4", "*22", 1/2),
      ("TPMT", "*3A", 0), ("NUDT15", "*3", 0), ("DPYD", "*2A", 0),
      ("TYMS", "*2", 1/2)].find?
      (fun e => e.1 == gene && e.2.1 == allele)).map (fun e => e.2.2)

/-- Modelled from the spec (section 4.2): the score bands mapping a summed
activity score to a metabolizer class. -/
def phenotypeBand (score : ℚ) : String :=
  if score ≤ 1/2 then "Poor Metabolizer"
  else if score ≤ 3/2 then "Intermediate Metabolizer"
  else if score ≤ 2 then "Normal Metabolizer"
  else "Ultrarapid Metabolizer"

/-- Modelled from the spec and README (README line 45: if no variants are
detected the system returns `"Unknown"`): the Phenotype Resolver — a gene
with no matching non-reference definition resolves to `"Unknown"`, an
allele missing from the score table forces `"Unknown"`, otherwise the
summed activity score is banded. -/
def phenotypeFor (gene : String) (vars : List Variant) : String :=
  if (matchedAlleles gene vars).isEmpty then "Unknown"
  else
    match callDiplotype gene vars with
    | [a1, a2] =>
        match activityScore gene a1, activityScore gene a2 with
        | some s1, some s2 => phenotypeBand (s1 + s2)
        | _, _ => "Unknown"
    | _ => "Unknown"

/-- The drug → relevant-genes map, taken verbatim from `DRUG_GENE_MAP` in
`analysisLogger.js` (lines 33-40). -/
def DRUG_GENE_MAP : List (String × List String) :=
  [("WARFARIN", ["CYP2C9", "VKORC1", "CYP4F2"]),
   ("CODEINE", ["CYP2D6"]),
   ("CLOPIDOGREL", ["CYP2C19", "ABCB1"]),
   ("SIMVASTATIN", ["SLCO1B1", "CYP3A4"]),
   ("AZATHIOPRINE", ["TPMT", "NUDT15"]),
   ("FLUOROURACIL", ["DPYD", "TYMS"])]

/-- The supported drug names. -/
def supportedDrugs : List String := DRUG_GENE_MAP.map Prod.fst

/-- The genes relevant to a drug. -/
def relevantGenes (d : String) : List String :=
  ((DRUG_GENE_MAP.find? (fun p => p.1 == d)).map Prod.snd).getD []

/-- A per-gene phenotype profile consumed by the Drug Risk Engine. -/
structure Profile where
  gene : String
  phenotype : String
deriving DecidableEq

/-- Modelled from the spec (section 4.4): the Multi-Gene Aggregator
assembles the profiles of the drug's relevant genes in declared gene
order. -/
def profilesFor (d : String) (vars : List Variant) : List Profile :=
  (relevantGenes d).map (fun g => ⟨g, phenotypeFor g vars⟩)

/-- Modelled from the spec (section 3, `DrugRiskRule`): an ordered list of
(gene, required-phenotype) conditions with the rule's clinical outputs. -/
structure DrugRule where
  conds : List (String × String)
  riskLabel : String
  severity : String
  dosing : String
  confidence : ℚ
  citation : String
deriving DecidableEq

/-- Modelled from the spec and README: the ordered rule lists, one per
drug; rules naming more genes are listed before broader single-gene
fallback rules, and the first matching rule wins. -/
def warfarinRules : List DrugRule :=
  [⟨[("CYP2C9", "Poor Metabolizer"), ("VKORC1", "Poor Metabolizer")],
    "Toxic", "high", "Reduce dose by 50-80 percent", 9/10, "CPIC Warfarin 2017"⟩,
   ⟨[("CYP2C9", "Intermediate Metabolizer"), ("VKORC1", "Intermediate Metabolizer")],
    "Adjust Dosage", "medium", "Reduce by 25-50 percent", 88/100, "CPIC Warfarin 2017"⟩,
   ⟨[("CYP2C9", "Poor Metabolizer")],
    "Toxic", "high", "Reduce dose by 50-80 percent", 85/100, "CPIC Warfarin 2017"⟩,
   ⟨[("CYP2C9", "Intermediate Metabolizer")],
    "Adjust Dosage", "medium", "Reduce by 25-50 percent", 88/100, "CPIC Warfarin 2017"⟩,
   ⟨[("CYP2C9", "Normal Metabolizer")],
    "Safe", "low", "Standard dosing", 9/10, "CPIC Warfarin 2017"⟩]

def codeineRules : List DrugRule :=
  [⟨[("CYP2D6", "Ultrarapid Metabolizer")],
    "Toxic", "high", "Avoid codeine; risk of morphine toxicity", 92/100, "CPIC Codeine 2014"⟩,
   ⟨[("CYP2D6", "Poor Metabolizer")],
    "Ineffective", "medium", "Avoid codeine; inadequate analgesia", 9/10, "CPIC Codeine 2014"⟩,
   ⟨[("CYP2D6", "Intermediate Metabolizer")],
    "Adjust Dosage", "medium", "Monitor response closely", 8/10, "CPIC Codeine 2014"⟩,
   ⟨[("CYP2D6", "Normal Metabolizer")],
    "Safe", "low", "Standard dosing", 9/10, "CPIC Codeine 2014"⟩]

def clopidogrelRules : List DrugRule :=
  [⟨[("CYP2C19", "Poor Metabolizer"), ("ABCB1", "Poor Metabolizer")],
    "Ineffective", "high", "Use alternative antiplatelet", 9/10, "CPIC Clopidogrel 2022"⟩,
   ⟨[("CYP2C19", "Poor Metabolizer")],
    "Ineffective", "high", "Use alternative antiplatelet", 85/100, "CPIC Clopidogrel 2022"⟩,
   ⟨[("CYP2C19", "Intermediate Metabolizer")],
    "Adjust Dosage", "medium", "Consider alternative or higher dose", 8/10,
    "CPIC Clopidogrel 2022"⟩,
   ⟨[("CYP2C19", "Normal Metabolizer")],
    "Safe", "low", "Standard dosing", 9/10, "CPIC Clopidogrel 2022"⟩,
   ⟨[("CYP2C19", "Ultrarapid Metabolizer")],
    "Safe", "low", "Standard dosing", 88/100, "CPIC Clopidogrel 2022"⟩]

def simvastatinRules : List DrugRule :=
  [⟨[("SLCO1B1", "Poor Metabolizer"), ("CYP3A4", "Poor Metabolizer")],
    "Toxic", "high", "Avoid simvastatin; myopathy risk", 9/10, "CPIC Simvastatin 2014"⟩,
   ⟨[("SLCO1B1", "Poor Metabolizer")],
    "Toxic", "high", "Avoid simvastatin; myopathy risk", 85/100, "CPIC Simvastatin 2014"⟩,
   ⟨[("SLCO1B1", "Intermediate Metabolizer")],
    "Adjust Dosage", "medium", "Limit dose to 20 mg", 8/10, "CPIC Simvastatin 2014"⟩,
   ⟨[("SLCO1B1", "Normal Metabolizer")],
    "Safe", "low", "Standard dosing", 9/10, "CPIC Simvastatin 2014"⟩]

def azathioprineRules : List DrugRule :=
  [⟨[("TPMT", "Poor Metabolizer"), ("NUDT15", "Poor Metabolizer")],
    "Toxic", "high", "Drastically reduce dose or use alternative", 92/100,
    "CPIC Thiopurines 2018"⟩,
   ⟨[("TPMT", "Poor Metabolizer")],
    "Toxic", "high", "Reduce dose by 90 percent", 9/10, "CPIC Thiopurines 2018"⟩,
   ⟨[("TPMT", "Intermediate Metabolizer")],
    "Adjust Dosage", "medium", "Reduce dose by 30-80 percent", 85/100,
    "CPIC Thiopurines 2018"⟩,
   ⟨[("TPMT", "Normal Metabolizer")],
    "Safe", "low", "Standard dosing", 9/10, "CPIC Thiopurines 2018"⟩]

def fluorouracilRules : List DrugRule :=
  [⟨[("DPYD", "Poor Metabolizer"), ("TYMS", "Poor Metabolizer")],
    "Toxic", "high", "Avoid fluoropyrimidines", 92/100, "CPIC Fluoropyrimidines 2017"⟩,
   ⟨[("DPYD", "Poor Metabolizer")],
    "Toxic", "high", "Avoid fluoropyrimidines", 9/10, "CPIC Fluoropyrimidines 2017"⟩,
   ⟨[("DPYD", "Intermediate Metabolizer")],
    "Adjust Dosage", "medium", "Reduce starting dose by 50 percent", 85/100,
    "CPIC Fluoropyrimidines 2017"⟩,
   ⟨[("DPYD", "Normal Metabolizer")],
    "Safe", "low", "Standard dosing", 9/10, "CPIC Fluoropyrimidines 2017"⟩]

/-- The rule table of the Drug Risk Engine, keyed by drug name. -/
def ruleTable (d : String) : Option (List DrugRule) :=
  ([("WARFARIN", warfarinRules), ("CODEINE", codeineRules),
    ("CLOPIDOGREL", clopidogrelRules), ("SIMVASTATIN", simvastatinRules),
    ("AZATHIOPRINE", azathioprineRules), ("FLUOROURACIL", fluorouracilRules)].find?
    (fun p => p.1 == d)).map Prod.snd

/-- Modelled from the spec (section 3, `RiskVerdict`): the sealed verdict. -/
structure RiskVerdict where
  drug : String
  riskLabel : String
  confidence : ℚ
  severity : String
  dosing : String
  confidenceBasis : String
  profiles : List Profile
deriving DecidableEq

/-- The decision fields of a verdict, frozen once the engine returns. -/
structure Decision where
  riskLabel : String
  confidence : ℚ
  severity : String
  dosing : String
  confidenceBasis : String
deriving DecidableEq

def RiskVerdict.decision (v : RiskVerdict) : Decision :=
  ⟨v.riskLabel, v.confidence, v.severity, v.dosing, v.confidenceBasis⟩

def cpicBasis : String := "CPIC guideline deterministic mapping"

def noDataBasis : String :=
  "No qualifying variants were found for the relevant genes; this reflects absence of data, not absence of risk"

/-- The phenotype recorded for a gene in the profile set, if any. -/
def lookupPhenotype (profiles : List Profile) (g : String) : Option String :=
  (profiles.find? (fun p => p.gene == g)).map Profile.phenotype

/-- Modelled from the spec (section 4.3): a rule matches when every
(gene, required-phenotype) condition it lists is satisfied; profiles of
genes the rule does not mention are ignored. -/
def ruleMatches (r : DrugRule) (profiles : List Profile) : Bool :=
  r.conds.all (fun c => lookupPhenotype profiles c.1 == some c.2)

def verdictOfRule (d : String) (r : DrugRule) (profiles : List Profile) : RiskVerdict :=
  ⟨d, r.riskLabel, r.confidence, r.severity, r.dosing, cpicBasis, profiles⟩

def unknownVerdict (d : String) (profiles : List Profile) : RiskVerdict :=
  ⟨d, "Unknown", 0, "none", "No dosing guidance available", noDataBasis, profiles⟩

/-- Modelled from the spec (section 4.3): the Drug Risk Engine — ordered
rule resolution with first-match authority, the `Unknown` zero-confidence
fallback when no rule matches, and `none` for an unsupported drug. -/
def resolveRisk (d : String) (profiles : List Profile) : Option RiskVerdict :=
  (ruleTable d).map (fun rules =>
    match rules.find? (fun r => ruleMatches r profiles) with
    | some r => verdictOfRule d r profiles
    | none => unknownVerdict d profiles)

/-- The number of distinct genes a rule names. -/
def geneCount (r : DrugRule) : Nat := (r.conds.map Prod.fst).eraseDups.length

mutual
/-- `cleanForFirestore` performs exactly the transformation described by
`IsCleanOf`: it removes `undefined`-valued object fields and nothing else. -/
theorem clean_isCleanOf : (v : Val) → IsCleanOf (clean v) v
  | .undef => .undef
  | .null => .null
  | .bool b => .bool b
  | .num q => .num q
  | .str s => .str s
  | .arr xs => .arr (cleanList_isCleanOf xs)
  | .obj fs => .obj (cleanFields_isCleanOf fs)

theorem cleanList_isCleanOf : (xs : List Val) → ListCleanOf (cleanList xs) xs
  | [] => .nil
  | v :: vs => .cons (clean_isCleanOf v) (cleanList_isCleanOf vs)

theorem cleanFields_isCleanOf : (fs : List (String × Val)) → FieldsCleanOf (cleanFields fs) fs
  | [] => .nil
  | (k, v) :: fs => by
      by_cases h : isUndef v = true
      · simpa [cleanFields, h] using FieldsCleanOf.drop (k := k) h (cleanFields_isCleanOf fs)
      · simpa [cleanFields, h] using
          FieldsCleanOf.keep (k := k) (Bool.not_eq_true _ ▸ h) (clean_isCleanOf v)
            (cleanFields_isCleanOf fs)
end

mutual
/-- After cleaning, no object field at any depth is `undefined`. -/
theorem clean_noUndefField : (v : Val) → noUndefField (clean v) = true
  | .undef => rfl
  | .null => rfl
  | .bool _ => rfl
  | .num _ => rfl
  | .str _ => rfl
  | .arr xs => by simpa [clean, noUndefField] using cleanList_noUndefField xs
  | .obj fs => by simpa [clean, noUndefField] using cleanFields_noUndefField fs

theorem cleanList_noUndefField : (xs : List Val) → noUndefFieldList (cleanList xs) = true
  | [] => rfl
  | v :: vs => by
      simp [cleanList, noUndefFieldList, clean_noUndefField v, cleanList_noUndefField vs]

theorem cleanFields_noUndefField :
    (fs : List (String × Val)) → noUndefFieldFields (cleanFields fs) = true
  | [] => rfl
  | (k, v) :: fs => by
      by_cases h : isUndef v = true
      · simpa [cleanFields, h] using cleanFields_noUndefField fs
      · have hv : isUndef (clean v) = false := by
          cases v <;> simp_all [clean, isUndef]
        simp [cleanFields, h, noUndefFieldFields, hv, clean_noUndefField v,
          cleanFields_noUndefField fs]
end

mutual
/-- A value containing no `undefined` anywhere is left untouched by
`cleanForFirestore`. -/
theorem clean_eq_self : (v : Val) → containsUndef v = false → clean v = v
  | .undef, h => by simp [containsUndef] at h
  | .null, _ => rfl
  | .bool _, _ => rfl
  | .num _, _ => rfl
  | .str _, _ => rfl
  | .arr xs, h => by
      simp only [containsUndef] at h
      simp [clean, cleanList_eq_self xs h]
  | .obj fs, h => by
      simp only [containsUndef] at h
      simp [clean, cleanFields_eq_self fs h]

theorem cleanList_eq_self : (xs : List Val) → containsUndefList xs = false → cleanList xs = xs
  | [], _ => rfl
  | v :: vs, h => by
      simp only [containsUndefList, Bool.or_eq_false_iff] at h
      simp [cleanList, clean_eq_self v h.1, cleanList_eq_self vs h.2]

theorem cleanFields_eq_self :
    (fs : List (String × Val)) → containsUndefFields fs = false → cleanFields fs = fs
  | [], _ => rfl
  | (k, v) :: fs, h => by
      simp only [containsUndefFields, Bool.or_eq_false_iff] at h
      have hv : isUndef v = false := by
        cases v <;> simp_all [containsUndef, isUndef]
      simp [cleanFields, hv, clean_eq_self v h.1, cleanFields_eq_self fs h.2]
end

theorem truthy_isUndef_false {v : Val} (h : truthy v = true) : isUndef v = false := by
  cases v <;> simp_all [truthy, isUndef]

theorem isUndef_arr (xs : List Val) : isUndef (.arr xs) = false := rfl

theorem isUndef_str (s : String) : isUndef (.str s) = false := rfl

theorem isUndef_num (q : ℚ) : isUndef (.num q) = false := rfl

theorem isUndef_jsOr_str (v : Val) (s : String) : isUndef (jsOr v (.str s)) = false := by
  by_cases h : truthy v = true
  · simp [jsOr, h, truthy_isUndef_false h]
  · simp [jsOr, h, isUndef]

/-- C2: saving a verdict to history leaves the verdict's decision fields
unchanged.  The payload stores under `results` exactly the engine results
passed through `cleanForFirestore` — related to the originals by
`ListCleanOf`, i.e. the only transformation is removal of
`undefined`-valued fields, and results containing no `undefined` at all are
stored byte-identically (so every `risk_assessment` and
`clinical_recommendation` field is kept exactly as produced).  The derived
summary fields `drugsSummary`, `riskSummary` and `avgConfidence` are stored
beside the results, as separate top-level keys, never inside them. -/
theorem saveAnalysis_results_preserved (results : List Val) (vcfFileName now : Val) :
    getField (saveAnalysisPayload results vcfFileName now) "results"
      = .arr (cleanList results) ∧
    ListCleanOf (cleanList results) results ∧
    (containsUndefList results = false →
      getField (saveAnalysisPayload results vcfFileName now) "results" = .arr results) ∧
    getField (saveAnalysisPayload results vcfFileName now) "drugsSummary"
      = .str (drugsSummaryOf results) ∧
    getField (saveAnalysisPayload results vcfFileName now) "riskSummary"
      = .str (riskSummaryOf results) ∧
    getField (saveAnalysisPayload results vcfFileName now) "avgConfidence"
      = .num (avgConfidenceOf results) := by
  have hvcf := isUndef_jsOr_str vcfFileName "unknown.vcf"
  by_cases hnow : isUndef now = true
  · have hp : saveAnalysisPayload results vcfFileName now
        = .obj [("results", .arr (cleanList results)),
                ("vcfFileName", clean (jsOr vcfFileName (.str "unknown.vcf"))),
                ("drugsSummary", .str (drugsSummaryOf results)),
                ("riskSummary", .str (riskSummaryOf results)),
                ("drugCount", .num (results.length : ℚ)),
                ("genesInvolved", .arr (cleanList (genesInvolvedOf results))),
                ("avgConfidence", .num (avgConfidenceOf results))] := by
      simp [saveAnalysisPayload, clean, cleanFields, hvcf, hnow, isUndef_arr, isUndef_str,
        isUndef_num]
    refine ⟨?_, cleanList_isCleanOf results, ?_, ?_, ?_, ?_⟩ <;>
        simp [hp, getField, List.find?]
    intro h
    rw [cleanList_eq_self results h]
  · have hp : saveAnalysisPayload results vcfFileName now
        = .obj [("results", .arr (cleanList results)),
                ("vcfFileName", clean (jsOr vcfFileName (.str "unknown.vcf"))),
                ("savedAt", clean now),
                ("drugsSummary", .str (drugsSummaryOf results)),
                ("riskSummary", .str (riskSummaryOf results)),
                ("drugCount", .num (results.length : ℚ)),
                ("genesInvolved", .arr (cleanList (genesInvolvedOf results))),
                ("avgConfidence", .num (avgConfidenceOf results))] := by
      simp [saveAnalysisPayload, clean, cleanFields, hvcf, hnow, isUndef_arr, isUndef_str,
        isUndef_num]
    refine ⟨?_, cleanList_isCleanOf results, ?_, ?_, ?_, ?_⟩ <;>
        simp [hp, getField, List.find?]
    intro h
    rw [cleanList_eq_self results h]

/-- Witness for C2 at a concrete result list with no `undefined` fields:
the stored `results` entry is byte-identical to the engine output. -/
theorem saveAnalysis_results_preserved_witness :
    getField (saveAnalysisPayload sampleResults .null .null) "results" = .arr sampleResults :=
  (saveAnalysis_results_preserved sampleResults .null .null).2.2.1 rfl

/-- C8 counterexample: the claim says the cleaned value contains no
`undefined` at any nesting depth including inside arrays, but
`cleanForFirestore` maps over arrays without filtering their elements, so
an `undefined` array element survives cleaning. -/
theorem cleanForFirestore_undef_survives_in_array :
    clean (Val.arr [Val.undef]) = Val.arr [Val.undef] ∧
    containsUndef (clean (Val.arr [Val.undef])) = true :=
  ⟨rfl, rfl⟩

/-- C8 (amended): `cleanForFirestore` returns a value in which no object
field at any nesting depth (including objects inside arrays) is
`undefined`; `undefined` array elements are left in place; and the result
differs from the input only by the removal of `undefined`-valued object
fields, every other value staying unchanged in its original position
(`IsCleanOf`). -/
theorem cleanForFirestore_amended (v : Val) :
    noUndefField (clean v) = true ∧ IsCleanOf (clean v) v :=
  ⟨clean_noUndefField v, clean_isCleanOf v⟩

theorem filter_id_length {l : List HistEntry} {i : String}
    (hnd : (l.map HistEntry.id).Nodup) (hm : i ∈ l.map HistEntry.id) :
    (l.filter (fun h => h.id != i)).length + 1 = l.length := by
  induction l with
  | nil => simp at hm
  | cons h t ih =>
    simp only [List.map_cons, List.nodup_cons] at hnd
    rcases List.mem_cons.mp hm with heq | ht
    · simp [List.filter_cons, heq]
      intro a ha habs
      exact hnd.1 (habs ▸ List.mem_map_of_mem HistEntry.id ha)
    · have hne : h.id ≠ i := fun habs => hnd.1 (habs ▸ ht)
      have hb : (h.id != i) = true := bne_iff_ne.mpr hne
      have hih := ih hnd.2 ht
      simp [List.filter_cons, hb]
      omega

/-- C9: deleting a saved analysis is atomic with respect to the local
history list.  On remote success the new history is a sublist of the old
one containing exactly the entries whose id differs from the deleted one
(so, with distinct ids and the id present, exactly one entry is removed),
the expanded panel is closed when it showed the deleted entry and kept
otherwise, and the error message is untouched.  On remote failure the
history list and the expanded panel are completely unchanged and the error
message is set instead. -/
theorem handleDelete_atomic (remoteOk : Bool) (i : String) (s : DashState) :
    (remoteOk = true →
      (handleDelete true i s).history.Sublist s.history ∧
      (∀ h, h ∈ (handleDelete true i s).history ↔ h ∈ s.history ∧ h.id ≠ i) ∧
      ((s.history.map HistEntry.id).Nodup → i ∈ s.history.map HistEntry.id →
        (handleDelete true i s).history.length + 1 = s.history.length) ∧
      (s.expanded = some i → (handleDelete true i s).expanded = none) ∧
      (s.expanded ≠ some i → (handleDelete true i s).expanded = s.expanded) ∧
      (handleDelete true i s).saveError = s.saveError) ∧
    (remoteOk = false →
      (handleDelete false i s).history = s.history ∧
      (handleDelete false i s).expanded = s.expanded ∧
      (handleDelete false i s).saveError = "Failed to delete. Check Firestore rules.") := by
  constructor
  · intro _
    refine ⟨List.filter_sublist s.history, ?_, ?_, ?_, ?_, rfl⟩
    · intro h
      simp [handleDelete, List.mem_filter]
    · intro hnd hm
      exact filter_id_length hnd hm
    · intro hx
      simp [handleDelete, hx]
    · intro hx
      simp [handleDelete, hx]
  · intro _
    exact ⟨rfl, rfl, rfl⟩

/-- Witness for C9: deleting entry `"a"` from the concrete state removes
exactly one entry and closes its expanded panel; a failing delete leaves
the history unchanged. -/
theorem handleDelete_atomic_witness :
    ((handleDelete true "a" sampleDash).history.length + 1 = sampleDash.history.length ∧
      (handleDelete true "a" sampleDash).expanded = none) ∧
    (handleDelete false "a" sampleDash).history = sampleDash.history := by
  have h := handleDelete_atomic true "a" sampleDash
  have hs := handleDelete_atomic false "a" sampleDash
  exact ⟨⟨(h.1 rfl).2.2.1 (by decide) (by decide), (h.1 rfl).2.2.2.1 rfl⟩, (hs.2 rfl).1⟩

theorem bumpCount_keys (acc : List (String × Nat)) (l : String) :
    (bumpCount acc l).map Prod.fst
      = if l ∈ acc.map Prod.fst then acc.map Prod.fst else acc.map Prod.fst ++ [l] := by
  induction acc with
  | nil => simp [bumpCount]
  | cons p t ih =>
    by_cases hp : p.1 = l
    · simp [bumpCount, hp]
    · have hne : ¬ l = p.1 := fun habs => hp habs.symm
      simp only [bumpCount, hp, if_false, List.map_cons, ih, List.mem_cons]
      by_cases hl : l ∈ t.map Prod.fst <;> simp [hl, hne]

theorem bumpCount_keys_nodup {acc : List (String × Nat)} {l : String}
    (h : (acc.map Prod.fst).Nodup) : ((bumpCount acc l).map Prod.fst).Nodup := by
  rw [bumpCount_keys]
  by_cases hl : l ∈ acc.map Prod.fst
  · simp [hl, h]
  · simp only [hl, if_false]
    rw [List.nodup_append]
    exact ⟨h, List.nodup_singleton l, fun k hk => by
      simp only [List.mem_singleton]
      intro habs
      exact hl (habs ▸ hk)⟩

theorem bumpCount_sum (acc : List (String × Nat)) (l : String) :
    ((bumpCount acc l).map Prod.snd).sum = (acc.map Prod.snd).sum + 1 := by
  induction acc with
  | nil => simp [bumpCount]
  | cons p t ih =>
    by_cases hp : p.1 = l
    · simp [bumpCount, hp]
      omega
    · simp [bumpCount, hp, ih]
      omega

theorem countOf_cons (p : String × Nat) (t : List (String × Nat)) (x : String) :
    countOf (p :: t) x = if p.1 = x then p.2 else countOf t x := by
  by_cases hx : p.1 = x
  · rw [countOf, List.find?_cons_of_pos _ (by simp [hx])]
    simp [hx]
  · rw [countOf, List.find?_cons_of_neg _ (by simp [hx])]
    simp [hx, countOf]

theorem countOf_nil (x : String) : countOf [] x = 0 := rfl

theorem bumpCount_countOf (acc : List (String × Nat)) (l x : String) :
    countOf (bumpCount acc l) x = countOf acc x + (if l = x then 1 else 0) := by
  induction acc with
  | nil =>
    by_cases hx : l = x <;>
      simp [bumpCount, countOf_cons, countOf_nil, hx]
  | cons p t ih =>
    by_cases hp : p.1 = l
    · by_cases hx : p.1 = x
      · have hlx : l = x := hp.symm.trans hx
        simp [bumpCount, hp, countOf_cons, hx, hlx]
      · have hlx : ¬ l = x := fun habs => hx (hp.trans habs)
        simp [bumpCount, hp, countOf_cons, hx, hlx]
    · have hb : bumpCount (p :: t) l = p :: bumpCount t l := by simp [bumpCount, hp]
      by_cases hx : p.1 = x
      · have hlx : ¬ l = x := fun habs => hp (hx.trans habs.symm)
        rw [hb]
        simp [countOf_cons, hx, hlx]
      · rw [hb]
        simp [countOf_cons, hx, ih]

theorem riskCounts_invariant (rs : List AnalysisResult) (acc : List (String × Nat))
    (h : (acc.map Prod.fst).Nodup) :
    ((rs.foldl (fun a r => bumpCount a (codeLabel r)) acc).map Prod.fst).Nodup ∧
    (((rs.foldl (fun a r => bumpCount a (codeLabel r)) acc).map Prod.snd).sum
      = (acc.map Prod.snd).sum + rs.length) ∧
    (∀ l, countOf (rs.foldl (fun a r => bumpCount a (codeLabel r)) acc) l
      = countOf acc l + rs.countP (fun r => codeLabel r == l)) := by
  induction rs generalizing acc with
  | nil => simp [h]
  | cons r t ih =>
    have hstep := ih (bumpCount acc (codeLabel r)) (bumpCount_keys_nodup h)
    refine ⟨hstep.1, ?_, ?_⟩
    · rw [List.foldl_cons, hstep.2.1, bumpCount_sum acc (codeLabel r), List.length_cons]
      omega
    · intro l
      rw [List.foldl_cons, hstep.2.2 l, bumpCount_countOf acc (codeLabel r) l,
        List.countP_cons]
      by_cases hrl : codeLabel r = l
      · simp [hrl]
        omega
      · have : (codeLabel r == l) = false := by
          rcases Bool.eq_false_or_eq_true (codeLabel r == l) with ht | hf
          · exact absurd (eq_of_beq ht) hrl
          · exact hf
        simp [hrl, this]

theorem toxic_pred_eq (r : AnalysisResult) :
    (match r.risk_assessment with
     | some a => a.risk_label == some "Toxic"
     | none => false) = (codeLabel r == "Toxic") := by
  obtain ⟨d, ra⟩ := r
  rcases ra with _ | a
  · simp [codeLabel]
  · obtain ⟨lab, conf⟩ := a
    rcases lab with _ | l
    · simp [codeLabel]
    · by_cases hl : l = ""
      · simp [codeLabel, hl]
      · simp [codeLabel, hl]

/-- C10 counterexample: the claim says every result is counted under its
`risk_label`, with `"Unknown"` used only when the label is absent.  For a
result whose `risk_label` is present but equal to the empty string, the
code's `|| 'Unknown'` fallback buckets it under `"Unknown"` instead, and
the count for its actual label `""` is 0. -/
theorem riskCounts_emptyLabel_counterexample :
    claimLabel emptyLabelResult = "" ∧
    riskCounts [emptyLabelResult] = [("Unknown", 1)] ∧
    countOf (riskCounts [emptyLabelResult]) (claimLabel emptyLabelResult) = 0 := by
  refine ⟨rfl, ?_, ?_⟩ <;> decide

/-- C10 (amended): the dashboard risk statistics partition the stored
results, with every result counted under exactly one label — its
`risk_label` when present and non-empty, otherwise `"Unknown"` (the code's
JavaScript falsy fallback).  The labels in `riskCounts` are pairwise
distinct, the per-label counts sum to the total number of results, each
label's count is exactly the number of results bucketed under it, and
`toxicCount` equals the count for label `"Toxic"`. -/
theorem riskCounts_partition (rs : List AnalysisResult) :
    ((riskCounts rs).map Prod.fst).Nodup ∧
    ((riskCounts rs).map Prod.snd).sum = rs.length ∧
    (∀ l, countOf (riskCounts rs) l = rs.countP (fun r => codeLabel r == l)) ∧
    toxicCount rs = countOf (riskCounts rs) "Toxic" := by
  simp only [riskCounts]
  have h := riskCounts_invariant rs [] (by simp)
  simp only [countOf_nil, List.map_nil, List.sum_nil, Nat.zero_add] at h
  refine ⟨h.1, h.2.1, h.2.2, ?_⟩
  rw [toxicCount, ← List.countP_eq_length_filter, h.2.2 "Toxic"]
  apply List.countP_congr
  intro r _
  rw [toxic_pred_eq r]

/-- C3: in a multi-drug run, a failed drug contributes no verdict.  The
results list consists exactly of the fulfilled per-drug verdicts, in
declared drug order; whatever is saved to history is that same list; and
the failure lines underlying the surfaced error message are exactly one
line per failed drug, naming it — an error is surfaced iff some drug
failed. -/
theorem handleAnalyze_failures_isolated (drugs : List String) (analyze : String → Outcome) :
    successesOf drugs analyze
      = drugs.filterMap (fun d => fulfilledValue (analyze d)) ∧
    (∀ saved, savedResultsOf drugs analyze = some saved →
      saved = drugs.filterMap (fun d => fulfilledValue (analyze d))) ∧
    failuresOf drugs analyze
      = (drugs.filter (fun d => isRejected (analyze d))).map (fun d =>
          match analyze d with
          | .rejected m => d ++ ": " ++ msgOr m
          | .fulfilled _ => d) ∧
    ((errorOf drugs analyze).isSome ↔ ∃ d ∈ drugs, isRejected (analyze d) = true) := by
  have hsucc : successesOf drugs analyze
      = drugs.filterMap (fun d => fulfilledValue (analyze d)) := by
    rw [successesOf, List.filterMap_map]
    rfl
  have hfail : failuresOf drugs analyze
      = (drugs.filter (fun d => isRejected (analyze d))).map (fun d =>
          match analyze d with
          | .rejected m => d ++ ": " ++ msgOr m
          | .fulfilled _ => d) := by
    clear hsucc
    rw [failuresOf]
    induction drugs with
    | nil => rfl
    | cons d t ih =>
      cases hd : analyze d with
      | fulfilled v =>
        simpa [List.zip_cons_cons, List.filterMap_cons, List.filter_cons, hd, isRejected]
          using ih
      | rejected m =>
        simpa [List.zip_cons_cons, List.filterMap_cons, List.filter_cons, hd, isRejected]
          using ih
  refine ⟨hsucc, ?_, hfail, ?_⟩
  · intro saved hsaved
    rw [savedResultsOf] at hsaved
    by_cases he : (successesOf drugs analyze).isEmpty
    · simp [he] at hsaved
    · simp [he] at hsaved
      rw [← hsaved, hsucc]
  · rw [errorOf]
    by_cases he : (failuresOf drugs analyze).isEmpty
    · simp only [he, if_true, Option.isSome_none, Bool.false_eq_true, false_iff]
      rintro ⟨d, hd, hrej⟩
      have hmem : d ∈ drugs.filter (fun d => isRejected (analyze d)) :=
        List.mem_filter.mpr ⟨hd, hrej⟩
      have hne : failuresOf drugs analyze ≠ [] := by
        rw [hfail]
        intro h0
        rw [List.map_eq_nil_iff] at h0
        rw [h0] at hmem
        simp at hmem
      exact hne (List.isEmpty_iff.mp he)
    · have hb : (failuresOf drugs analyze).isEmpty = false := by
        cases h : (failuresOf drugs analyze).isEmpty
        · rfl
        · exact absurd h he
      simp only [hb, Bool.false_eq_true, if_false, Option.isSome_some, true_iff]
      have hne : failuresOf drugs analyze ≠ [] := by
        intro h0
        exact he (by simp [h0])
      rw [hfail] at hne
      have hfne : drugs.filter (fun d => isRejected (analyze d)) ≠ [] := by
        intro h0
        exact hne (by rw [h0]; rfl)
      rcases List.exists_mem_of_ne_nil _ hfne with ⟨d, hd⟩
      rcases List.mem_filter.mp hd with ⟨hdd, hrej⟩
      exact ⟨d, hdd, hrej⟩

theorem settle_foldl_getElem (outs : List Outcome) (order : List Nat)
    (slots : List (Option Outcome)) (j : Nat) :
    (order.foldl (recordOutcome outs) slots)[j]?
      = if j ∈ order ∧ j < slots.length then some outs[j]? else slots[j]? := by
  induction order generalizing slots with
  | nil => simp
  | cons i rest ih =>
    rw [List.foldl_cons, ih (recordOutcome outs slots i)]
    have hlen : (recordOutcome outs slots i).length = slots.length := by
      simp [recordOutcome]
    have hset : (recordOutcome outs slots i)[j]?
        = if i = j then (if j < slots.length then some outs[j]? else none) else slots[j]? := by
      rw [recordOutcome, List.getElem?_set]
      by_cases hij : i = j
      · subst hij
        by_cases hj : i < slots.length <;> simp [hj]
      · simp [hij]
    rw [hlen]
    by_cases hr : j ∈ rest
    · by_cases hj : j < slots.length
      · simp [hr, hj]
      · have hnone : slots[j]? = none := List.getElem?_eq_none (by omega)
        rw [hset]
        by_cases hij : i = j <;> simp [hr, hj, hij, hnone]
    · by_cases hij : i = j
      · subst hij
        by_cases hj : i < slots.length
        · simp [hr, hj, hset]
        · have hnone : slots[i]? = none := List.getElem?_eq_none (by omega)
          simp [hr, hj, hset, hnone]
      · have hji : ¬ j = i := fun habs => hij habs.symm
        simp [hr, hij, hji, hset]

theorem settleAll_eq (outs : List Outcome) (order : List Nat)
    (hcov : ∀ j, j < outs.length → j ∈ order) :
    settleAll outs order = outs.map some := by
  apply List.ext_getElem?
  intro j
  rw [settleAll, settle_foldl_getElem, List.length_replicate]
  by_cases hj : j < outs.length
  · rw [if_pos ⟨hcov j hj, hj⟩, List.getElem?_eq_getElem hj,
      List.getElem?_eq_getElem (by simpa using hj)]
    simp
  · rw [if_neg (fun habs => hj habs.2)]
    rw [List.getElem?_eq_none (by simpa using not_lt.mp hj),
      List.getElem?_eq_none (by simpa using not_lt.mp hj)]

theorem collectSuccesses_map_some (l : List Outcome) :
    collectSuccesses (l.map some) = l.filterMap fulfilledValue := by
  induction l with
  | nil => rfl
  | cons o t ih =>
    cases o <;>
      simpa [collectSuccesses, List.filterMap_cons, fulfilledValue] using ih

/-- C4: when several drugs are analyzed at once against one file, the
settled array equals the outcomes in declared drug order — for every
completion schedule covering all launches — and therefore the assembled
results list is exactly the fulfilled per-drug verdicts in the declared
order of the selected drug list, independent of the order in which the
parallel per-drug analyses complete. -/
theorem handleAnalyze_merge_declared_order (drugs : List String)
    (analyze : String → Outcome) (order : List Nat)
    (horder : order.Perm (List.range drugs.length)) :
    settleAll (drugs.map analyze) order = (drugs.map analyze).map some ∧
    collectSuccesses (settleAll (drugs.map analyze) order)
      = drugs.filterMap (fun d => fulfilledValue (analyze d)) := by
  have hcov : ∀ j, j < (drugs.map analyze).length → j ∈ order := by
    intro j hj
    rw [horder.mem_iff]
    exact List.mem_range.mpr (by simpa using hj)
  have h1 := settleAll_eq (drugs.map analyze) order hcov
  refine ⟨h1, ?_⟩
  rw [h1, collectSuccesses_map_some, List.filterMap_map]
  rfl

/-- Witness for C3: with one fulfilled and one rejected drug, the saved
history equals the fulfilled-only results in declared order. -/
theorem handleAnalyze_failures_isolated_witness :
    [Val.str "verdict"]
      = ["CODEINE", "NOPE"].filterMap (fun d => fulfilledValue (sampleAnalyze d)) :=
  (handleAnalyze_failures_isolated ["CODEINE", "NOPE"] sampleAnalyze).2.1
    [Val.str "verdict"] rfl

/-- Witness for C4: a reversed completion schedule still yields the
declared-order results list. -/
theorem handleAnalyze_merge_declared_order_witness :
    collectSuccesses (settleAll (["CODEINE", "NOPE"].map sampleAnalyze) [1, 0])
      = ["CODEINE", "NOPE"].filterMap (fun d => fulfilledValue (sampleAnalyze d)) :=
  (handleAnalyze_merge_declared_order ["CODEINE", "NOPE"] sampleAnalyze [1, 0]
    (by decide)).2

theorem allocAlleles_length_le (cap : Nat) (l : List (String × Nat)) :
    (allocAlleles cap l).length ≤ cap := by
  induction l generalizing cap with
  | nil => simp [allocAlleles]
  | cons p rest ih =>
    obtain ⟨n, c⟩ := p
    simp only [allocAlleles, List.length_append, List.length_replicate]
    have := ih (cap - (min c cap))
    omega

theorem starAlleleDefs_rsids_ne_nil : ∀ d ∈ starAlleleDefs, d.rsids ≠ [] := by
  decide

theorem matchedAlleles_nil_of_no_variants (gene : String) (vars : List Variant)
    (h : variantsForGene gene vars = []) : matchedAlleles gene vars = [] := by
  rw [matchedAlleles]
  simp only [h]
  rw [List.filterMap_eq_nil_iff]
  intro d hd
  have hne : d.rsids ≠ [] :=
    starAlleleDefs_rsids_ne_nil d (List.mem_of_mem_filter hd)
  have hm : defMatches d [] = false := by
    rw [defMatches]
    cases hr : d.rsids with
    | nil => exact absurd hr hne
    | cons r rs => simp [genotypeAt]
  simp [hm]

/-- C7: every diplotype produced by the Diplotype Caller resolves to
exactly two star alleles, and for every gene with zero detected variants or
no variant matching any non-reference definition, the diplotype is the
reference pair `(*1, *1)`. -/
theorem diplotype_two_alleles (gene : String) (vars : List Variant) :
    (callDiplotype gene vars).length = 2 ∧
    (variantsForGene gene vars = [] ∨ matchedAlleles gene vars = [] →
      callDiplotype gene vars = ["*1", "*1"]) := by
  constructor
  · have hle := allocAlleles_length_le 2 (matchedAlleles gene vars)
    simp only [callDiplotype, List.length_append, List.length_replicate]
    omega
  · intro h
    have hmatched : matchedAlleles gene vars = [] := by
      rcases h with hv | hm
      · exact matchedAlleles_nil_of_no_variants gene vars hv
      · exact hm
    rw [callDiplotype, hmatched]
    rfl

/-- Witness for C7: a gene with zero supplied variants resolves to the
reference pair and to exactly two alleles. -/
theorem diplotype_two_alleles_witness :
    (callDiplotype "CYP2C9" []).length = 2 ∧ callDiplotype "CYP2C9" [] = ["*1", "*1"] :=
  ⟨(diplotype_two_alleles "CYP2C9" []).1,
   (diplotype_two_alleles "CYP2C9" []).2 (Or.inl rfl)⟩

/-- C1: for every analysis of a supported drug in which zero qualifying
variants are detected for any gene relevant to that drug, the returned
verdict has risk label `"Unknown"` with confidence 0, and its
`confidence_basis` states that no qualifying variants were found —
absence of data, not absence of risk. -/
theorem noVariants_unknown_verdict (d : String) (vars : List Variant)
    (hd : d ∈ supportedDrugs)
    (hq : ∀ g ∈ relevantGenes d, matchedAlleles g vars = []) :
    (resolveRisk d (profilesFor d vars)).map RiskVerdict.riskLabel = some "Unknown" ∧
    (resolveRisk d (profilesFor d vars)).map RiskVerdict.confidence = some 0 ∧
    (resolveRisk d (profilesFor d vars)).map RiskVerdict.confidenceBasis
      = some noDataBasis := by
  have hpf : ∀ g ∈ relevantGenes d, phenotypeFor g vars = "Unknown" := by
    intro g hg
    rw [phenotypeFor, if_pos (by simp [hq g hg])]
  have hp : profilesFor d vars = (relevantGenes d).map (fun g => ⟨g, "Unknown"⟩) := by
    rw [profilesFor]
    exact List.map_congr_left (fun g hg => by rw [hpf g hg])
  simp only [supportedDrugs, DRUG_GENE_MAP, List.map_cons, List.map_nil,
    List.mem_cons, List.not_mem_nil, or_false] at hd
  rcases hd with rfl | rfl | rfl | rfl | rfl | rfl <;>
    · rw [hp]
      decide

/-- Witness for C1: the spec scenario — zero variants supplied, drug
CLOPIDOGREL — yields the Unknown verdict with confidence 0 and the
no-qualifying-variants basis. -/
theorem noVariants_unknown_verdict_witness :
    (resolveRisk "CLOPIDOGREL" (profilesFor "CLOPIDOGREL" [])).map RiskVerdict.riskLabel
      = some "Unknown" ∧
    (resolveRisk "CLOPIDOGREL" (profilesFor "CLOPIDOGREL" [])).map RiskVerdict.confidence
      = some 0 ∧
    (resolveRisk "CLOPIDOGREL" (profilesFor "CLOPIDOGREL" [])).map
      RiskVerdict.confidenceBasis = some noDataBasis :=
  noVariants_unknown_verdict "CLOPIDOGREL" [] (by decide) (by decide)

theorem find?_eq_of_perm {α : Type} (f : α → Bool) {l₁ l₂ : List α} (h : l₁.Perm l₂)
    (hu : ∀ a ∈ l₁, ∀ b ∈ l₁, f a = true → f b = true → a = b) :
    l₁.find? f = l₂.find? f := by
  cases h₁ : l₁.find? f with
  | none =>
    rw [List.find?_eq_none] at h₁
    cases h₂ : l₂.find? f with
    | none => rfl
    | some b =>
      have hfb := List.find?_some h₂
      have hmb := h.mem_iff.mpr (List.mem_of_find?_eq_some h₂)
      exact absurd hfb (by simpa using h₁ b hmb)
  | some a =>
    have hfa := List.find?_some h₁
    have hma := List.mem_of_find?_eq_some h₁
    cases h₂ : l₂.find? f with
    | none =>
      rw [List.find?_eq_none] at h₂
      exact absurd hfa (by simpa using h₂ a (h.mem_iff.mp hma))
    | some b =>
      have hfb := List.find?_some h₂
      have hmb := h.mem_iff.mpr (List.mem_of_find?_eq_some h₂)
      exact congrArg some (hu a hma b hmb hfa hfb)

theorem map_nodup_inj {α β : Type} (f : α → β) {l : List α} (h : (l.map f).Nodup)
    {a b : α} (ha : a ∈ l) (hb : b ∈ l) (hf : f a = f b) : a = b := by
  induction l with
  | nil => simp at ha
  | cons x t ih =>
    simp only [List.map_cons, List.nodup_cons] at h
    rcases List.mem_cons.mp ha with rfl | hat
    · rcases List.mem_cons.mp hb with rfl | hbt
      · rfl
      · exact absurd (by rw [hf]; exact List.mem_map_of_mem f hbt) h.1
    · rcases List.mem_cons.mp hb with rfl | hbt
      · exact absurd (by rw [← hf]; exact List.mem_map_of_mem f hat) h.1
      · exact ih h.2 hat hbt

theorem lookupPhenotype_perm {p q : List Profile} (h : p.Perm q)
    (hn : (p.map Profile.gene).Nodup) (g : String) :
    lookupPhenotype p g = lookupPhenotype q g := by
  rw [lookupPhenotype, lookupPhenotype,
    find?_eq_of_perm (fun pr => pr.gene == g) h
      (fun a ha b hb hfa hfb =>
        map_nodup_inj Profile.gene hn ha hb ((eq_of_beq hfa).trans (eq_of_beq hfb).symm))]

/-- C5: rule resolution is a pure function of the pair (drug, profile set):
evaluating it twice on identical inputs trivially yields identical
verdicts, and — capturing "function of the profile *set*" — any
reordering of a duplicate-free profile list leaves every decision field of
the verdict (risk label, confidence, severity, dosing, basis) unchanged. -/
theorem ruleResolution_pure (d : String) (p q : List Profile)
    (hpq : p.Perm q) (hn : (p.map Profile.gene).Nodup) :
    resolveRisk d p = resolveRisk d p ∧
    (resolveRisk d p).map RiskVerdict.decision
      = (resolveRisk d q).map RiskVerdict.decision := by
  refine ⟨rfl, ?_⟩
  have hmatch : (fun r => ruleMatches r p) = (fun r => ruleMatches r q) := by
    funext r
    rw [ruleMatches, ruleMatches]
    have : (fun c : String × String => lookupPhenotype p c.1 == some c.2)
        = (fun c : String × String => lookupPhenotype q c.1 == some c.2) := by
      funext c
      rw [lookupPhenotype_perm hpq hn c.1]
    rw [this]
  rw [resolveRisk, resolveRisk, hmatch]
  cases htab : ruleTable d with
  | none => rfl
  | some rules =>
    cases hfind : rules.find? (fun r => ruleMatches r q) <;>
      simp [hfind, verdictOfRule, unknownVerdict, RiskVerdict.decision]

/-- Witness for C5: reordering the duplicate-free profile list of a
two-gene drug leaves the decision fields of the verdict unchanged. -/
theorem ruleResolution_pure_witness :
    resolveRisk "CLOPIDOGREL"
        [⟨"CYP2C19", "Poor Metabolizer"⟩, ⟨"ABCB1", "Poor Metabolizer"⟩]
      = resolveRisk "CLOPIDOGREL"
        [⟨"CYP2C19", "Poor Metabolizer"⟩, ⟨"ABCB1", "Poor Metabolizer"⟩] ∧
    (resolveRisk "CLOPIDOGREL"
        [⟨"CYP2C19", "Poor Metabolizer"⟩, ⟨"ABCB1", "Poor Metabolizer"⟩]).map
        RiskVerdict.decision
      = (resolveRisk "CLOPIDOGREL"
        [⟨"ABCB1", "Poor Metabolizer"⟩, ⟨"CYP2C19", "Poor Metabolizer"⟩]).map
        RiskVerdict.decision :=
  ruleResolution_pure "CLOPIDOGREL"
    [⟨"CYP2C19", "Poor Metabolizer"⟩, ⟨"ABCB1", "Poor Metabolizer"⟩]
    [⟨"ABCB1", "Poor Metabolizer"⟩, ⟨"CYP2C19", "Poor Metabolizer"⟩]
    (by decide) (by decide)

theorem find?_eq_of_first {α : Type} (f : α → Bool) (l : List α) (i : Nat) (a : α)
    (ha : l[i]? = some a) (hfa : f a = true)
    (hk : ∀ k b, k < i → l[k]? = some b → f b = false) :
    l.find? f = some a := by
  induction l generalizing i with
  | nil => simp at ha
  | cons x t ih =>
    cases i with
    | zero =>
      obtain rfl : x = a := by simpa using ha
      rw [List.find?_cons_of_pos _ hfa]
    | succ n =>
      have h0 : f x = false := hk 0 x (Nat.succ_pos n) (by simp)
      rw [List.find?_cons_of_neg _ (by simp [h0])]
      exact ih n (by simpa using ha)
        (fun k b hkn hkb => hk (k + 1) b (by omega) (by simpa using hkb))

/-- C6: for every supported drug's ordered rule list, no rule naming a
single gene precedes a rule naming two or more genes — i.e. every
multi-gene rule is positioned strictly before any single-gene fallback
rule — and the first matching rule in this order is authoritative: if the
rule at index `i` matches and no earlier rule does, the engine's verdict is
exactly that rule's outputs, so a dangerous secondary-gene interaction is
never masked by a generic primary-gene rule. -/
theorem specificity_first_match :
    (∀ d ∈ supportedDrugs,
      ((ruleTable d).getD []).Pairwise
        (fun ri rj => ¬(geneCount ri = 1 ∧ 2 ≤ geneCount rj))) ∧
    (∀ (d : String) (rules : List DrugRule) (profiles : List Profile) (i : Nat)
        (r : DrugRule), ruleTable d = some rules → rules[i]? = some r →
      ruleMatches r profiles = true →
      (∀ k rk, k < i → rules[k]? = some rk → ruleMatches rk profiles = false) →
      resolveRisk d profiles = some (verdictOfRule d r profiles)) := by
  constructor
  · decide
  · intro d rules profiles i r htable hi hmatch hfirst
    have hfind := find?_eq_of_first (fun r => ruleMatches r profiles) rules i r hi hmatch
      hfirst
    rw [resolveRisk, htable]
    simp [hfind]

/-- Witness for C6: the ordering invariant holds for WARFARIN's rule list,
and for CODEINE an ultrarapid-metabolizer profile is decided by the first
(matching) rule of the list. -/
theorem specificity_first_match_witness :
    ((ruleTable "WARFARIN").getD []).Pairwise
      (fun ri rj => ¬(geneCount ri = 1 ∧ 2 ≤ geneCount rj)) ∧
    resolveRisk "CODEINE" [⟨"CYP2D6", "Ultrarapid Metabolizer"⟩]
      = some (verdictOfRule "CODEINE"
          ⟨[("CYP2D6", "Ultrarapid Metabolizer")], "Toxic", "high",
           "Avoid codeine; risk of morphine toxicity", 92/100, "CPIC Codeine 2014"⟩
          [⟨"CYP2D6", "Ultrarapid Metabolizer"⟩]) :=
  ⟨specificity_first_match.1 "WARFARIN" (by decide),
   specificity_first_match.2 "CODEINE" codeineRules
     [⟨"CYP2D6", "Ultrarapid Metabolizer"⟩] 0
     ⟨[("CYP2D6", "Ultrarapid Metabolizer")], "Toxic", "high",
      "Avoid codeine; risk of morphine toxicity", 92/100, "CPIC Codeine 2014"⟩
     rfl rfl (by decide)
     (fun k rk hk _ => absurd hk (Nat.not_lt_zero k))⟩

end Pharma
